import Mathlib

/-!
Verification of `utr_scrape.py` (UTR rating history scraper).

The parsing functions of the script operate on the element tree produced by
BeautifulSoup from the input markup (the `lxml` front end is total: every
input string, well formed or not, yields a tree).  We embed that tree as the
inductive type `Node` and translate the functions of the script over it.

Conventions of the embedding:
  * Python strings are Lean `String`s; `str.strip()` is `pyStrip` (the six
    ASCII whitespace characters stripped from both ends), `str.lower()` is
    `pyLower` (the inputs of interest are ASCII).
  * CSS attribute selection `[class*= needle ]` compares against the class
    list joined by single spaces, as soupsieve does for multi-valued
    attributes; `Tag.select` searches the strict descendants of the tag.
  * The regular expressions of the script are modelled by hand-rolled
    matchers implementing Python `re.search` semantics: leftmost starting
    position first, alternation tried left to right, greedy counted
    quantifiers with backtracking, `\b` as the ASCII word boundary.
-/

namespace UTR

/-- A node of the soup tree: either a text node (`NavigableString`) or an
element with a tag name, an `id` attribute (empty when absent), a class
attribute (a list of class tokens) and children in document order.  The
document (soup) object itself is an element node. -/
inductive Node where
  | text (s : String)
  | elem (tag : String) (idAttr : String) (classes : List String) (children : List Node)
deriving Repr

/-! ### String helpers (Python semantics) -/

/-- The characters removed by Python `str.strip()` (ASCII whitespace). -/
def isPySpace (c : Char) : Bool :=
  c = ' ' || c = '\t' || c = '\n' || c = '\r' || c = '\x0b' || c = '\x0c'

/-- Python `str.strip()` on a character list. -/
def pyStripList (l : List Char) : List Char :=
  ((l.dropWhile isPySpace).reverse.dropWhile isPySpace).reverse

/-- Python `str.strip()`. -/
def pyStrip (s : String) : String := ⟨pyStripList s.toList⟩

/-- ASCII lowercasing of one character. -/
def lowerChar (c : Char) : Char :=
  if 65 ≤ c.toNat ∧ c.toNat ≤ 90 then Char.ofNat (c.toNat + 32) else c

/-- Python `str.lower()` on the ASCII inputs of interest. -/
def pyLower (s : String) : String := ⟨s.toList.map lowerChar⟩

/-- Python `sep.join(parts)`: the parts joined with `sep` between each two. -/
def joinSep (sep : String) : List String → String
  | [] => ""
  | x :: xs => xs.foldl (fun acc y => acc ++ sep ++ y) x

/-- Whether `needle` is a prefix of `hay`. -/
def startsWithL (needle hay : List Char) : Bool :=
  match needle, hay with
  | [], _ => true
  | _ :: _, [] => false
  | a :: as_, b :: bs => (a = b) && startsWithL as_ bs

/-- Whether `needle` occurs as a contiguous substring of `hay`. -/
def containsSub (needle : List Char) : List Char → Bool
  | [] => startsWithL needle []
  | b :: bs => startsWithL needle (b :: bs) || containsSub needle bs

/-- Whether string `sub` occurs inside string `s` (CSS `*=` matching). -/
def strContains (s sub : String) : Bool := containsSub sub.toList s.toList

/-! ### Regular expression models

The script uses three patterns through `re.search`:
  * `\d{1,2}\.\d{1,2}` (rating normalisation, line 71),
  * `\b(\d{4}-\d{2}-\d{2}|\d{1,2}/\d{1,2}/\d{2,4})\b` (date fallback, line 63),
  * `\b(\d{1,2}\.\d{1,2})\b` (rating fallback, line 64).
-/

/-- Python `\w` on ASCII input: letters, digits and underscore. -/
def wordChar (c : Char) : Bool := c.isAlphanum || c = '_'

/-- A word boundary holds after the match iff the remaining input is empty or
starts with a non-word character (the last matched character is a digit). -/
def boundaryAfter : List Char → Bool
  | [] => true
  | c :: _ => !(wordChar c)

/-- Match `\d{1,2}` at the head of the input (greedy: two digits preferred,
backtracking to one), returning the matched characters and the rest. -/
def matchFrac : List Char → Option (List Char × List Char)
  | [] => none
  | [a] => if a.isDigit then some ([a], []) else none
  | a :: b :: rest =>
    if a.isDigit && b.isDigit then some ([a, b], rest)
    else if a.isDigit then some ([a], b :: rest)
    else none

/-- Match `\d{1,2}` followed by a trailing word boundary (greedy with
backtracking against the boundary). -/
def matchFracB : List Char → Option (List Char × List Char)
  | [] => none
  | [a] => if a.isDigit then some ([a], []) else none
  | a :: b :: rest =>
    if a.isDigit && b.isDigit && boundaryAfter rest then some ([a, b], rest)
    else if a.isDigit && boundaryAfter (b :: rest) then some ([a], b :: rest)
    else none

/-- Match `\d{1,2}\.\d{1,2}` at the head of the input, with the greedy
backtracking order of Python: two integer digits tried before one. -/
def matchUTRAt (l : List Char) : Option (List Char × List Char) :=
  match l with
  | [] => none
  | a :: rest1 =>
    if !a.isDigit then none
    else
      (match rest1 with
       | b :: '.' :: rest2 =>
         if b.isDigit then
           (matchFrac rest2).map (fun p => (a :: b :: '.' :: p.1, p.2))
         else none
       | _ => none)
      <|>
      (match rest1 with
       | '.' :: rest2 => (matchFrac rest2).map (fun p => (a :: '.' :: p.1, p.2))
       | _ => none)

/-- `matchUTRAt` with a trailing word boundary on the fractional part. -/
def matchUTRAtB (l : List Char) : Option (List Char × List Char) :=
  match l with
  | [] => none
  | a :: rest1 =>
    if !a.isDigit then none
    else
      (match rest1 with
       | b :: '.' :: rest2 =>
         if b.isDigit then
           (matchFracB rest2).map (fun p => (a :: b :: '.' :: p.1, p.2))
         else none
       | _ => none)
      <|>
      (match rest1 with
       | '.' :: rest2 => (matchFracB rest2).map (fun p => (a :: '.' :: p.1, p.2))
       | _ => none)

/-- `re.search` driver for an unanchored pattern without a leading boundary:
try to match at each position from the left, return the first match. -/
def searchFrom (m : List Char → Option (List Char × List Char)) :
    List Char → Option (List Char)
  | [] => none
  | c :: t =>
    match m (c :: t) with
    | some r => some r.1
    | none => searchFrom m t

/-- `re.search` driver for a pattern whose first character is a word
character and which carries a leading `\b`: a position qualifies when the
preceding character (if any) is not a word character. -/
def searchFromB (m : List Char → Option (List Char × List Char)) :
    Option Char → List Char → Option (List Char)
  | _, [] => none
  | prev, c :: t =>
    let bOK : Bool := match prev with | none => true | some p => !(wordChar p)
    match (if bOK then m (c :: t) else none) with
    | some r => some r.1
    | none => searchFromB m (some c) t

/-- `re.search(r"\d{1,2}\.\d{1,2}", s)`, returning the matched text. -/
def searchUTR (s : String) : Option String :=
  (searchFrom matchUTRAt s.toList).map (fun l => ⟨l⟩)

/-- `re.search(r"\b(\d{1,2}\.\d{1,2})\b", s).group(1)` (the boundaries are
zero-width, so group 1 is the whole matched text). -/
def searchUTRB (s : String) : Option String :=
  (searchFromB matchUTRAtB none s.toList).map (fun l => ⟨l⟩)

/-- Match exactly `n` digits at the head of the input. -/
def exactDigits : Nat → List Char → Option (List Char × List Char)
  | 0, l => some ([], l)
  | _ + 1, [] => none
  | n + 1, c :: t =>
    if c.isDigit then (exactDigits n t).map (fun p => (c :: p.1, p.2)) else none

/-- The candidate splits for `\d{lo,hi}` in greedy order (`hi` first). -/
def digitsChoices (lo hi : Nat) (l : List Char) : List (List Char × List Char) :=
  ((List.range (hi + 1 - lo)).map (fun i => hi - i)).filterMap
    (fun k => exactDigits k l)

/-- Match `\d{4}-\d{2}-\d{2}` followed by a trailing word boundary. -/
def isoAt : List Char → Option (List Char × List Char)
  | a :: b :: c :: d :: e :: f :: g :: h :: i :: j :: rest =>
    if a.isDigit && b.isDigit && c.isDigit && d.isDigit && e = '-' &&
       f.isDigit && g.isDigit && h = '-' && i.isDigit && j.isDigit &&
       boundaryAfter rest
    then some ([a, b, c, d, e, f, g, h, i, j], rest)
    else none
  | _ => none

/-- Match `\d{1,2}/\d{1,2}/\d{2,4}` with a trailing word boundary, with full
greedy backtracking across the three counted groups. -/
def slashAt (l : List Char) : Option (List Char × List Char) :=
  (digitsChoices 1 2 l).findSome? (fun p1 =>
    match p1.2 with
    | '/' :: r2 =>
      (digitsChoices 1 2 r2).findSome? (fun p2 =>
        match p2.2 with
        | '/' :: r4 =>
          (digitsChoices 2 4 r4).findSome? (fun p3 =>
            if boundaryAfter p3.2 then
              some (p1.1 ++ '/' :: p2.1 ++ '/' :: p3.1, p3.2)
            else none)
        | _ => none)
    | _ => none)

/-- The date alternation: the ISO branch tried before the slash branch. -/
def dateAt (l : List Char) : Option (List Char × List Char) :=
  isoAt l <|> slashAt l

/-- `re.search(r"\b(\d{4}-\d{2}-\d{2}|\d{1,2}/\d{1,2}/\d{2,4})\b", s).group(1)`. -/
def searchDate (s : String) : Option String :=
  (searchFromB dateAt none s.toList).map (fun l => ⟨l⟩)

/-! ### Tree traversal -/

mutual

/-- The strict descendants of a node, in document (pre)order. -/
def descendants : Node → List Node
  | .text _ => []
  | .elem _ _ _ cs => descList cs

/-- The nodes of a forest: each root followed by its descendants. -/
def descList : List Node → List Node
  | [] => []
  | c :: cs => c :: descendants c ++ descList cs

end

/-- A node together with its strict descendants. -/
def allNodes (n : Node) : List Node := n :: descendants n

mutual

/-- The text contents of a subtree in document order (`tag.strings`). -/
def stringsOf : Node → List String
  | .text s => [s]
  | .elem _ _ _ cs => stringsOfList cs

/-- The text contents of a forest in document order. -/
def stringsOfList : List Node → List String
  | [] => []
  | c :: cs => stringsOf c ++ stringsOfList cs

end

mutual

/-- The text nodes strictly below a node, each with the path of child
indices leading to it from that node. -/
def textPathsOf : Node → List (List Nat × String)
  | .text _ => []
  | .elem _ _ _ cs => textPathsList 0 cs

/-- Text nodes of a forest with paths, the first root having index `i`. -/
def textPathsList (i : Nat) : List Node → List (List Nat × String)
  | [] => []
  | c :: cs =>
    (match c with
     | .text s => [([i], s)]
     | .elem _ _ _ _ => (textPathsOf c).map (fun q => (i :: q.1, q.2)))
    ++ textPathsList (i + 1) cs

end

/-- Resolve a path of child indices to the node it denotes. -/
def nodeAt : Node → List Nat → Option Node
  | n, [] => some n
  | .text _, _ :: _ => none
  | .elem _ _ _ cs, i :: p =>
    match cs.get? i with
    | some c => nodeAt c p
    | none => none

/-- The parent of a node given by its path; `none` above the root. -/
def parentPath : List Nat → Option (List Nat)
  | [] => none
  | p => some p.dropLast

/-! ### Selector predicates -/

/-- Whether the node is an element with the given tag. -/
def isTag (n : Node) (t : String) : Bool :=
  match n with
  | .text _ => false
  | .elem tag _ _ _ => tag = t

/-- The serialised class attribute, the tokens joined by spaces, as soupsieve
matches `[class*=...]` against multi-valued attributes. -/
def classStr : Node → String
  | .text _ => ""
  | .elem _ _ cls _ => joinSep " " cls

/-- `[class*= needle ]` on the node. -/
def classContains (n : Node) (needle : String) : Bool :=
  strContains (classStr n) needle

/-- `div[class*='historyItem__']`. -/
def isItemDiv (n : Node) : Bool :=
  isTag n "div" && classContains n "historyItem__"

/-- `div[class*='historyItemDate__']`. -/
def isDateDiv (n : Node) : Bool :=
  isTag n "div" && classContains n "historyItemDate__"

/-- `div[class*='historyItemRating__']`. -/
def isRatingDiv (n : Node) : Bool :=
  isTag n "div" && classContains n "historyItemRating__"

/-- `div:has(div[class*='historyItemDate__'])`. -/
def isHasDateDiv (n : Node) : Bool :=
  isTag n "div" && (descendants n).any isDateDiv

/-- The guard of the ancestor climb (line 43 of the script): the container
has a descendant matching
`div[class*='historyItem__'], div:has(div[class*='historyItemDate__'])`. -/
def containerPred (n : Node) : Bool :=
  (descendants n).any (fun d => isItemDiv d || isHasDateDiv d)

/-- `containerPred` through a path into the document. -/
def containerPredAt (doc : Node) (p : List Nat) : Bool :=
  match nodeAt doc p with
  | some n => containerPred n
  | none => false

/-! ### `parse_full_history_from_html` -/

/-- Line 11 of the script. -/
def FULL_HISTORY_HEADER_CANDIDATES : List String :=
  ["Full Rating History", "Full Ratings History"]

/-- Lines 30-35: the first text node of the document (in document order)
whose stripped text is non-empty and equals, case-insensitively, one of the
header candidates; returned as its path. -/
def headerPath (doc : Node) : Option (List Nat) :=
  ((textPathsOf doc).find? (fun q =>
    let t := pyStrip q.2
    t ≠ "" && (FULL_HISTORY_HEADER_CANDIDATES.map pyLower).contains (pyLower t))).map
    Prod.fst

/-- Lines 40-45: the bounded ancestor climb.  The loop body first breaks on a
missing container (`if not container`: the only falsy case reachable here is
`None`, since every ancestor of the header text node has at least one child),
then breaks when the container satisfies `containerPred`, else moves to the
parent.  The fuel is the `range(4)` bound. -/
def climbLoop (doc : Node) : Option (List Nat) → Nat → Option (List Nat)
  | c, 0 => c
  | none, _ + 1 => none
  | some p, k + 1 =>
    if containerPredAt doc p then some p
    else climbLoop doc (parentPath p) k

/-- Lines 37-47: the container used for collecting candidate record nodes,
as a path into the document (`[]` is the whole document).  With no header
anchor the container is the soup; with one, the climb starts at
`header_node.find_parent()` and a vanished container (`None`) falls back to
the soup. -/
def selectContainer (doc : Node) : List Nat :=
  match headerPath doc with
  | none => []
  | some hp =>
    match climbLoop doc (parentPath hp) 4 with
    | none => []
    | some p => p

/-- The container node itself. -/
def containerOf (doc : Node) : Node :=
  (nodeAt doc (selectContainer doc)).getD doc

/-- Lines 50-52: candidate record nodes: the `historyItem__` divs of the
container, or, when there are none, the divs having a `historyItemDate__`
div below them. -/
def itemNodes (doc : Node) : List Node :=
  let c := containerOf doc
  let primary := (descendants c).filter isItemDiv
  if primary.isEmpty then (descendants c).filter isHasDateDiv else primary

/-- `el.get_text(sep, strip=True)`: each text content stripped, the empty
ones discarded, the rest joined with `sep`. -/
def getTextSep (sep : String) (n : Node) : String :=
  joinSep sep (((stringsOf n).map pyStrip).filter (fun s => !(s == "")))

/-- `el.get_text(strip=True)` (separator empty). -/
def getTextStrip (n : Node) : String := getTextSep "" n

/-- Line 62: the fallback text of an item: the `div` and `span` descendants,
each rendered with `get_text(" ", strip=True)`, joined with single spaces
(the outer join keeps empty pieces). -/
def fallbackText (item : Node) : String :=
  joinSep " "
    (((descendants item).filter (fun d => isTag d "div" || isTag d "span")).map
      (getTextSep " "))

/-- One extracted record: the script builds `{'date': ..., 'UTR': ...}`. -/
structure Row where
  date : String
  UTR : String
deriving Repr, DecidableEq

/-- Lines 54-76: the record derived from one candidate item node, `none`
when the final date or rating text is empty (the row is not appended). -/
def rowOfItem (item : Node) : Option Row :=
  let date_el := (descendants item).find? isDateDiv
  let utr_el := (descendants item).find? isRatingDiv
  let dt0 := (date_el.map getTextStrip).getD ""
  let ut0 := (utr_el.map getTextStrip).getD ""
  let txt := fallbackText item
  let dt1 :=
    if dt0 = "" ∨ ut0 = "" then
      match searchDate txt with
      | some g => if dt0 = "" then g else dt0
      | none => dt0
    else dt0
  let ut1 :=
    if dt0 = "" ∨ ut0 = "" then
      match searchUTRB txt with
      | some g => if ut0 = "" then g else ut0
      | none => ut0
    else ut0
  let ut2 :=
    if ut1 ≠ "" then
      match searchUTR ut1 with
      | some g => g
      | none => ut1
    else ut1
  if dt1 ≠ "" ∧ ut2 ≠ "" then some ⟨dt1, ut2⟩ else none

/-- The rows in document order before deduplication (lines 49-76). -/
def rawRows (doc : Node) : List Row :=
  (itemNodes doc).filterMap rowOfItem

/-- Lines 78-84: keep the first occurrence of each `(date, UTR)` key (the
key is the whole row), preserving order. -/
def dedupKeep (seen : List Row) : List Row → List Row
  | [] => []
  | r :: rs =>
    if r ∈ seen then dedupKeep seen rs
    else r :: dedupKeep (r :: seen) rs

/-- Lines 22-85: the whole extraction, from the soup tree of the markup. -/
def parse_full_history_from_html (doc : Node) : List Row :=
  dedupKeep [] (rawRows doc)

/-! ### `extract_name_from_title` (lines 17-20) -/

/-- Python `title.split("|")[0]`: the longest prefix without a bar. -/
def splitFirstBar : List Char → List Char
  | [] => []
  | c :: t => if c = '|' then [] else c :: splitFirstBar t

/-- Lines 17-20 of the script: empty for a falsy title, otherwise the part
before the first bar, stripped. -/
def extract_name_from_title (title : String) : String :=
  if title = "" then "" else pyStrip ⟨splitFirstBar title.toList⟩

/-- Modelled from the spec wording of PlayerIdentity: the substring of the
title preceding the first bar delimiter, with surrounding whitespace
trimmed. -/
def specPlayerIdentity (title : String) : String :=
  pyStrip ⟨title.toList.takeWhile (fun c => c ≠ '|')⟩

/-! ### `looks_logged_in` (lines 255-264) -/

/-- `div[class*='popup__overlay']`. -/
def isOverlayDiv (n : Node) : Bool :=
  isTag n "div" && classContains n "popup__overlay"

/-- The full text of an element, for Playwright `:has-text(...)` matching
(case-insensitive substring of the text content). -/
def textOf (n : Node) : String := joinSep "" (stringsOf n)

/-- `#emailInput, #passwordInput, button:has-text('SIGN IN')`. -/
def isLoginMarker (n : Node) : Bool :=
  match n with
  | .text _ => false
  | .elem tag idAttr _ _ =>
    idAttr = "emailInput" || idAttr = "passwordInput" ||
    (tag = "button" && strContains (pyLower (textOf n)) "sign in")

/-- Lines 255-264: false when some overlay element is on the page, false
when some login field or SIGN IN control is on the page, true otherwise.
(The `except` branch of the source fires only on a Playwright transport
error, which has no counterpart on a materialised document.) -/
def looks_logged_in (page : Node) : Bool :=
  if 0 < ((descendants page).filter isOverlayDiv).length then false
  else if 0 < ((descendants page).filter isLoginMarker).length then false
  else true

/-! ### `write_csv` (lines 379-387)

`pd.DataFrame(rows)` takes its columns from the keys of the row dicts in
order of first appearance (`date`, `UTR`); the two `insert(0, ...)` calls
put `player_name` then `user_id` in front.  `df.to_csv(out_path,
index=False)` writes header and rows; the following
`print(f"Wrote {len[df]} rows ...")` subscripts the builtin `len` and so
raises `TypeError` on every non-empty run, after the file is written. -/

/-- The tabular file produced by `to_csv`. -/
structure CsvFile where
  header : List String
  rows : List (List String)
deriving Repr, DecidableEq

/-- The observable outcome of `write_csv`. -/
inductive WriteResult where
  /-- `df.empty`: prints "No rows found." and returns; no file written. -/
  | noRows
  /-- The CSV was written, then `len[df]` raised `TypeError`. -/
  | typeError (written : CsvFile)
deriving Repr, DecidableEq

/-- Lines 379-387 of the script. -/
def write_csv (user_id : Nat) (player_name : String) (rows : List Row) :
    WriteResult :=
  if rows.isEmpty then .noRows
  else
    .typeError
      { header := ["user_id", "player_name", "date", "UTR"]
        rows := rows.map (fun r => [toString user_id, player_name, r.date, r.UTR]) }

/-! ### `live_fetch_profile_html` (lines 305-373)

The whole body runs inside `with sync_playwright() as pw:`; leaving the
`with` block — normally or through a propagating exception — stops the
Playwright driver, which closes every browser and context it spawned.  We
model the body as a straight-line sequence of operations, each of which may
raise (an oracle `fails` says which one does first); the helpers that
swallow their own exceptions (`save_diagnostics`, `stop_tracing`,
`looks_logged_in`, `click_overlay_sign_in_if_present`, `wait_for_login_form`,
`click_show_all_if_present`) are not failure points.  The state records
which resources are open when the function exits. -/

/-- Which browsing resources are open. -/
structure PWState where
  browserOpen : Bool
  contextOpen : Bool
deriving Repr, DecidableEq

/-- How the live fetch ended. -/
inductive FetchOutcome where
  /-- `return html, title` was reached. -/
  | ok
  /-- An operation raised; the exception propagates out of the function. -/
  | raised (step : String)
deriving Repr, DecidableEq

/-- Outcome together with the resource state at function exit. -/
structure FetchResult where
  outcome : FetchOutcome
  state : PWState
deriving Repr, DecidableEq

/-- The body of `live_fetch_profile_html` inside the `with` block.
`needAuth` is the line-338 condition (credentials present and
`looks_logged_in` false); `fails s = true` means operation `s` raises when
reached.  The state paired with a `raised` outcome is the resources still
open at the moment the exception leaves the body. -/
def liveFetchBody (needAuth : Bool) (fails : String → Bool) : FetchResult :=
  if fails "launch" then ⟨.raised "launch", false, false⟩
  else if fails "new_context" then ⟨.raised "new_context", true, false⟩
  else if fails "new_page" then ⟨.raised "new_page", true, true⟩
  else if fails "goto_profile" then ⟨.raised "goto_profile", true, true⟩
  else if needAuth && fails "auth_flow" then ⟨.raised "auth_flow", true, true⟩
  else if needAuth && fails "goto_reload" then ⟨.raised "goto_reload", true, true⟩
  else if fails "wait_header" then ⟨.raised "wait_header", true, true⟩
  else if fails "get_title" then ⟨.raised "get_title", true, true⟩
  else if fails "get_content" then ⟨.raised "get_content", true, true⟩
  else
    -- stop_tracing (swallows errors), context.close(), browser.close(), return
    ⟨.ok, false, false⟩

/-- Lines 305-373: the function as observed by its caller.  Whatever the
body did, leaving the `with sync_playwright()` block stops the driver and
with it every browser and context still open. -/
def live_fetch_profile_html (needAuth : Bool) (fails : String → Bool) :
    FetchResult :=
  let r := liveFetchBody needAuth fails
  ⟨r.outcome, false, false⟩

/-! ### Concrete documents used in the theorems -/

/-- A record node of the history list: an item div with a date div and a
rating div below it; `cls` distinguishes structurally distinct items. -/
def recordItem (cls d r : String) : Node :=
  Node.elem "div" "" ["historyItem__" ++ cls]
    [Node.elem "div" "" ["historyItemDate__x"] [Node.text d],
     Node.elem "div" "" ["historyItemRating__x"] [Node.text r]]

/-- A minimal document: the header followed by one record node. -/
def oneRecordDoc (d r : String) : Node :=
  Node.elem "[document]" "" []
    [Node.elem "div" "" [] [Node.text "Full Rating History"],
     recordItem "a" d r]

/-- The end-to-end scenario document: header, then records
2023-01-05/11.20, 2023-03-10/11.45, and a duplicate of the first in a
structurally distinct node. -/
def exampleDoc : Node :=
  Node.elem "[document]" "" []
    [Node.elem "div" "" [] [Node.text "Full Rating History"],
     recordItem "a" "2023-01-05" "11.20",
     recordItem "b" "2023-03-10" "11.45",
     recordItem "c" "2023-01-05" "11.20"]

/-- The empty document: a soup with no children. -/
def emptyDoc : Node := Node.elem "[document]" "" [] []

/-- Markup with neither a header variant nor any record-node marker. -/
def plainDoc : Node :=
  Node.elem "[document]" "" []
    [Node.elem "div" "" ["foo"] [Node.text "hello"]]

/-- A document whose header text sits six element levels below the root
while the only record node is a sibling subtree of that chain: the climb
from the header parent checks four ancestors, finds nothing, and stops at
an inner ancestor. -/
def deepDoc : Node :=
  Node.elem "[document]" "" []
    [Node.elem "div" "" []
      [Node.elem "div" "" []
        [Node.elem "div" "" []
          [Node.elem "div" "" []
            [Node.elem "div" "" []
              [Node.elem "div" "" []
                [Node.text "Full Rating History"]]]]]],
     recordItem "m" "2023-01-05" "11.20"]

/-! ### Absence predicates for the empty-result claims -/

/-- Some text of the document is (case-insensitively, stripped) one of the
header candidates. -/
def hasHeaderText (doc : Node) : Bool :=
  (stringsOf doc).any (fun s =>
    let t := pyStrip s
    t ≠ "" && (FULL_HISTORY_HEADER_CANDIDATES.map pyLower).contains (pyLower t))

/-- Some node of the document carries a record-node structural marker: a
class containing `historyItem__` or `historyItemDate__`. -/
def hasRecordMarker (doc : Node) : Bool :=
  (allNodes doc).any (fun n =>
    classContains n "historyItem__" || classContains n "historyItemDate__")

/-! ### Closed form of the ancestor climb -/

/-- `dropLast` iterated. -/
def iterDropLast : Nat → List Nat → List Nat
  | 0, p => p
  | k + 1, p => iterDropLast k p.dropLast

/-- The ancestor chain of a path: itself, its parent, ..., the root. -/
def chainFrom (p : List Nat) : List (List Nat) :=
  (List.range (p.length + 1)).map (fun k => iterDropLast k p)

/-- The container selection, stated in closed form: with no anchor the whole
document; otherwise the first of the (at most four) checked ancestors of the
header text — its parent upward — that satisfies the record-node predicate;
failing that, the fourth ancestor above the parent when it exists, and the
whole document when the chain is shorter (the climb walked past the root). -/
def specContainer (doc : Node) : List Nat :=
  match headerPath doc with
  | none => []
  | some hp =>
    let p0 := hp.dropLast
    match ((chainFrom p0).take 4).find? (fun p => containerPredAt doc p) with
    | some q => q
    | none => if 4 ≤ p0.length then iterDropLast 4 p0 else []

/-! ### Name extraction lemmas -/

/-- `split("|")[0]` is the longest prefix free of bars. -/
theorem splitFirstBar_takeWhile (l : List Char) :
    splitFirstBar l = l.takeWhile (fun c => c ≠ '|') := by
  induction l with
  | nil => rfl
  | cons c t ih =>
    by_cases h : c = '|'
    · simp [splitFirstBar, List.takeWhile_cons, h]
    · simp [splitFirstBar, List.takeWhile_cons, h, ih]

/-- A bar-free list is left intact by `splitFirstBar`. -/
theorem splitFirstBar_of_not_mem {l : List Char} (h : '|' ∉ l) :
    splitFirstBar l = l := by
  induction l with
  | nil => rfl
  | cons c t ih =>
    have hc : c ≠ '|' := fun hc => h (hc ▸ List.mem_cons_self c t)
    have ht : '|' ∉ t := fun ht => h (List.mem_cons_of_mem c ht)
    simp [splitFirstBar, hc, ih ht]

/-- C6: for every title string, the derived PlayerIdentity equals the
substring of the title preceding the first bar delimiter with surrounding
whitespace trimmed, and is empty for an empty title; in particular
"John Smith | Player Profile" yields "John Smith" and "" yields "". -/
theorem C6_player_identity :
    (∀ title : String, extract_name_from_title title = specPlayerIdentity title) ∧
    extract_name_from_title "John Smith | Player Profile" = "John Smith" ∧
    extract_name_from_title "" = "" := by
  refine ⟨?_, by decide, by decide⟩
  intro t
  by_cases h : t = ""
  · subst h; decide
  · simp only [extract_name_from_title, if_neg h, specPlayerIdentity,
      splitFirstBar_takeWhile]

/-- C10: for every non-empty title containing no bar character, the derived
PlayerIdentity is the entire title with surrounding whitespace trimmed. -/
theorem C10_no_delimiter (t : String) (h : t ≠ "") (hbar : '|' ∉ t.toList) :
    extract_name_from_title t = pyStrip t := by
  simp only [extract_name_from_title, if_neg h, splitFirstBar_of_not_mem hbar]
  rfl

theorem C10_no_delimiter_witness :
    "John Smith" ≠ "" ∧ '|' ∉ "John Smith".toList ∧
    extract_name_from_title "John Smith" = pyStrip "John Smith" :=
  ⟨by decide, by decide, C10_no_delimiter "John Smith" (by decide) (by decide)⟩

/-- C7: when the record sequence passed to the tabular export is empty, no
file is written and the "no rows" condition is reported; the call returns
normally. -/
theorem C7_empty_export :
    ∀ (uid : Nat) (name : String), write_csv uid name [] = .noRows :=
  fun _ _ => rfl

/-- C5 (code bug): for every non-empty record sequence the export writes one
row per record with columns user_id, player_name, date, rating-value in that
order and the identifiers constant across rows, but the function then raises
TypeError at `len[df]` instead of completing normally. -/
theorem C5_export_crashes :
    write_csv 1 "John Smith" [⟨"2023-01-05", "11.20"⟩] =
      .typeError ⟨["user_id", "player_name", "date", "UTR"],
                  [["1", "John Smith", "2023-01-05", "11.20"]]⟩ ∧
    (∀ (uid : Nat) (name : String) (r : Row) (rs : List Row),
      write_csv uid name (r :: rs) =
        .typeError ⟨["user_id", "player_name", "date", "UTR"],
                    (r :: rs).map (fun q => [toString uid, name, q.date, q.UTR])⟩) :=
  ⟨rfl, fun _ _ _ _ => rfl⟩

/-- C9: the live acquisition cycle never exits with an open browsing
resource: on every exit path, including every raising step, browser and
context are closed when the function returns; on the normal path the body
itself has already closed them before leaving the `with` block. -/
theorem C9_resources_released :
    ∀ (needAuth : Bool) (fails : String → Bool),
      (live_fetch_profile_html needAuth fails).state.browserOpen = false ∧
      (live_fetch_profile_html needAuth fails).state.contextOpen = false ∧
      ((liveFetchBody needAuth fails).outcome = .ok →
        (liveFetchBody needAuth fails).state = ⟨false, false⟩) := by
  intro na f
  refine ⟨rfl, rfl, ?_⟩
  by_cases h1 : f "launch"
  · simp [liveFetchBody, h1]
  by_cases h2 : f "new_context"
  · simp [liveFetchBody, h1, h2]
  by_cases h3 : f "new_page"
  · simp [liveFetchBody, h1, h2, h3]
  by_cases h4 : f "goto_profile"
  · simp [liveFetchBody, h1, h2, h3, h4]
  by_cases h5 : na && f "auth_flow"
  · simp [liveFetchBody, h1, h2, h3, h4, h5]
  by_cases h6 : na && f "goto_reload"
  · simp [liveFetchBody, h1, h2, h3, h4, h5, h6]
  by_cases h7 : f "wait_header"
  · simp [liveFetchBody, h1, h2, h3, h4, h5, h6, h7]
  by_cases h8 : f "get_title"
  · simp [liveFetchBody, h1, h2, h3, h4, h5, h6, h7, h8]
  by_cases h9 : f "get_content"
  · simp [liveFetchBody, h1, h2, h3, h4, h5, h6, h7, h8, h9]
  · simp [liveFetchBody, h1, h2, h3, h4, h5, h6, h7, h8, h9]

theorem C9_resources_released_witness :
    (liveFetchBody false (fun _ => false)).outcome = .ok ∧
    (liveFetchBody false (fun _ => false)).state = ⟨false, false⟩ :=
  ⟨rfl, (C9_resources_released false (fun _ => false)).2.2 rfl⟩

/-- A locator count is positive exactly when some node matches. -/
theorem filter_length_pos_iff {p : Node → Bool} {l : List Node} :
    0 < (l.filter p).length ↔ ∃ n ∈ l, p n = true := by
  rw [List.length_pos]
  constructor
  · intro h
    obtain ⟨n, hn⟩ := List.exists_mem_of_ne_nil _ h
    exact ⟨n, (List.mem_filter.mp hn).1, (List.mem_filter.mp hn).2⟩
  · rintro ⟨n, hl, hp⟩ he
    exact (List.filter_eq_nil_iff.mp he n hl) hp

/-- C8: the "looks authenticated" heuristic returns true iff the document
holds no overlay element and no login-field or sign-in-control marker. -/
theorem C8_looks_authenticated :
    ∀ page : Node, looks_logged_in page = true ↔
      ((∀ n ∈ descendants page, isOverlayDiv n = false) ∧
       (∀ n ∈ descendants page, isLoginMarker n = false)) := by
  intro page
  constructor
  · intro h
    by_cases h1 : 0 < ((descendants page).filter isOverlayDiv).length
    · rw [looks_logged_in, if_pos h1] at h; cases h
    by_cases h2 : 0 < ((descendants page).filter isLoginMarker).length
    · rw [looks_logged_in, if_neg h1, if_pos h2] at h; cases h
    refine ⟨?_, ?_⟩
    · intro n hn
      cases hov : isOverlayDiv n with
      | false => rfl
      | true => exact absurd (filter_length_pos_iff.mpr ⟨n, hn, hov⟩) h1
    · intro n hn
      cases hlm : isLoginMarker n with
      | false => rfl
      | true => exact absurd (filter_length_pos_iff.mpr ⟨n, hn, hlm⟩) h2
  · rintro ⟨ha, hb⟩
    have h1 : ¬ 0 < ((descendants page).filter isOverlayDiv).length := by
      intro hp
      obtain ⟨n, hn, hpn⟩ := filter_length_pos_iff.mp hp
      rw [ha n hn] at hpn; cases hpn
    have h2 : ¬ 0 < ((descendants page).filter isLoginMarker).length := by
      intro hp
      obtain ⟨n, hn, hpn⟩ := filter_length_pos_iff.mp hp
      rw [hb n hn] at hpn; cases hpn
    rw [looks_logged_in, if_neg h1, if_neg h2]

/-! ### Deduplication lemmas (lines 78-84 of the script) -/

/-- Deduplication only drops elements: the result is a sublist, so document
order is preserved and nothing is sorted. -/
theorem dedupKeep_sublist : ∀ (l : List Row) (seen : List Row),
    (dedupKeep seen l).Sublist l := by
  intro l
  induction l with
  | nil => intro seen; exact List.Sublist.refl []
  | cons r rs ih =>
    intro seen
    rw [dedupKeep]
    by_cases h : r ∈ seen
    · rw [if_pos h]; exact (ih seen).cons r
    · rw [if_neg h]; exact (ih (r :: seen)).cons₂ r

/-- Nothing already seen is emitted. -/
theorem dedupKeep_not_mem_seen : ∀ (l : List Row) (seen : List Row) (r : Row),
    r ∈ dedupKeep seen l → r ∉ seen := by
  intro l
  induction l with
  | nil => intro seen r h; cases h
  | cons s rs ih =>
    intro seen r h
    rw [dedupKeep] at h
    by_cases hs : s ∈ seen
    · rw [if_pos hs] at h; exact ih seen r h
    · rw [if_neg hs] at h
      rcases List.mem_cons.mp h with he | ht
      · subst he; exact hs
      · intro hr
        exact ih (s :: seen) r ht (List.mem_cons_of_mem s hr)

/-- The emitted list has no duplicate `(date, UTR)` keys. -/
theorem dedupKeep_nodup : ∀ (l : List Row) (seen : List Row),
    (dedupKeep seen l).Nodup := by
  intro l
  induction l with
  | nil => intro seen; exact List.nodup_nil
  | cons s rs ih =>
    intro seen
    rw [dedupKeep]
    by_cases hs : s ∈ seen
    · rw [if_pos hs]; exact ih seen
    · rw [if_neg hs]
      refine List.nodup_cons.mpr ⟨?_, ih (s :: seen)⟩
      intro hmem
      exact dedupKeep_not_mem_seen rs (s :: seen) s hmem (List.mem_cons_self s seen)

/-- Every key of the input is represented: it was seen before, or it is
emitted. -/
theorem mem_dedupKeep : ∀ (l : List Row) (seen : List Row) (r : Row),
    r ∈ l → r ∈ seen ∨ r ∈ dedupKeep seen l := by
  intro l
  induction l with
  | nil => intro seen r h; cases h
  | cons s rs ih =>
    intro seen r h
    rw [dedupKeep]
    by_cases hs : s ∈ seen
    · rw [if_pos hs]
      rcases List.mem_cons.mp h with he | ht
      · exact Or.inl (he ▸ hs)
      · exact ih seen r ht
    · rw [if_neg hs]
      rcases List.mem_cons.mp h with he | ht
      · exact Or.inr (he ▸ List.mem_cons_self s _)
      · rcases ih (s :: seen) r ht with hseen | hout
        · rcases List.mem_cons.mp hseen with he | hs2
          · exact Or.inr (he ▸ List.mem_cons_self s _)
          · exact Or.inl hs2
        · exact Or.inr (List.mem_cons_of_mem s hout)

/-- C1: extraction deduplicates by the `(date, rating)` pair, keeping the
first occurrence in document order (the result is a sublist of the raw rows,
so no sorting happens), every raw key still occurs, and the header-plus-three
-records scenario yields exactly the two distinct records in order. -/
theorem C1_dedup_order :
    (∀ doc : Node,
      (parse_full_history_from_html doc).Nodup ∧
      (parse_full_history_from_html doc).Sublist (rawRows doc) ∧
      (∀ r : Row, r ∈ rawRows doc → r ∈ parse_full_history_from_html doc)) ∧
    parse_full_history_from_html exampleDoc =
      [⟨"2023-01-05", "11.20"⟩, ⟨"2023-03-10", "11.45"⟩] := by
  refine ⟨?_, by decide⟩
  intro doc
  refine ⟨dedupKeep_nodup _ _, dedupKeep_sublist _ _, ?_⟩
  intro r hr
  rcases mem_dedupKeep (rawRows doc) [] r hr with h | h
  · cases h
  · exact h

theorem C1_dedup_order_witness :
    (⟨"2023-01-05", "11.20"⟩ : Row) ∈ rawRows exampleDoc ∧
    (⟨"2023-01-05", "11.20"⟩ : Row) ∈ parse_full_history_from_html exampleDoc :=
  ⟨by decide, (C1_dedup_order.1 exampleDoc).2.2 _ (by decide)⟩

/-! ### Subtree membership lemmas -/

mutual

/-- Descendant containment is transitive through a node. -/
theorem descendants_trans : ∀ (n m : Node), m ∈ descendants n →
    ∀ k, k ∈ descendants m → k ∈ descendants n
  | .text _, m, hm => by rw [descendants] at hm; cases hm
  | .elem t i cls cs, m, hm => by
    rw [descendants] at hm ⊢
    exact descList_trans cs m hm

/-- Descendant containment is transitive through a forest. -/
theorem descList_trans : ∀ (cs : List Node) (m : Node), m ∈ descList cs →
    ∀ k, k ∈ descendants m → k ∈ descList cs
  | [], m, hm => by rw [descList] at hm; cases hm
  | c :: cs, m, hm => by
    rw [descList] at hm ⊢
    intro k hk
    rcases List.mem_cons.mp hm with he | ht
    · subst he
      exact List.mem_cons_of_mem _ (List.mem_append_left _ hk)
    · rcases List.mem_append.mp ht with hdc | hcs
      · exact List.mem_cons_of_mem _
          (List.mem_append_left _ (descendants_trans c m hdc k hk))
      · exact List.mem_cons_of_mem _
          (List.mem_append_right _ (descList_trans cs m hcs k hk))

end

/-- A root of a forest is among its nodes. -/
theorem mem_descList_of_mem {c : Node} {cs : List Node} (h : c ∈ cs) :
    c ∈ descList cs := by
  induction cs with
  | nil => cases h
  | cons d cs ih =>
    rw [descList]
    rcases List.mem_cons.mp h with he | ht
    · exact he ▸ List.mem_cons_self _ _
    · exact List.mem_cons_of_mem _ (List.mem_append_right _ (ih ht))

/-- A node reached by a path is the root or one of its descendants. -/
theorem nodeAt_mem : ∀ (p : List Nat) (n m : Node), nodeAt n p = some m →
    m = n ∨ m ∈ descendants n := by
  intro p
  induction p with
  | nil => intro n m h; rw [nodeAt] at h; exact Or.inl (Option.some.inj h).symm
  | cons i p ih =>
    intro n m h
    cases n with
    | text s => rw [nodeAt] at h; cases h
    | elem t idA cls cs =>
      rw [nodeAt] at h
      cases hg : cs.get? i with
      | none => rw [hg] at h; cases h
      | some c =>
        rw [hg] at h
        have hc : c ∈ cs := List.get?_mem hg
        rw [descendants]
        rcases ih c m h with he | hd
        · exact Or.inr (he ▸ mem_descList_of_mem hc)
        · exact Or.inr (descList_trans cs c (mem_descList_of_mem hc) m hd)

/-- Every descendant of the selected container is a descendant of the
document. -/
theorem container_desc_sub (doc : Node) :
    ∀ x ∈ descendants (containerOf doc), x ∈ descendants doc := by
  intro x hx
  have hcase : containerOf doc = doc ∨ containerOf doc ∈ descendants doc := by
    unfold containerOf
    cases hn : nodeAt doc (selectContainer doc) with
    | none => exact Or.inl rfl
    | some m => exact nodeAt_mem _ _ _ hn
  rcases hcase with he | hd
  · rw [he] at hx; exact hx
  · exact descendants_trans doc (containerOf doc) hd x hx

/-- Without a record-node marker anywhere, no candidate item node exists. -/
theorem itemNodes_nil_of_no_marker {doc : Node}
    (h : hasRecordMarker doc = false) : itemNodes doc = [] := by
  have hpt : ∀ n ∈ allNodes doc,
      classContains n "historyItem__" = false ∧
      classContains n "historyItemDate__" = false := by
    intro n hn
    have := List.any_eq_false.mp h n hn
    simp only [Bool.or_eq_true, not_or, Bool.not_eq_true] at this
    exact this
  have hdoc : ∀ x ∈ descendants (containerOf doc), x ∈ allNodes doc :=
    fun x hx => List.mem_cons_of_mem _ (container_desc_sub doc x hx)
  have h1 : ∀ x ∈ descendants (containerOf doc), isItemDiv x = false := by
    intro x hx
    rw [isItemDiv, (hpt x (hdoc x hx)).1, Bool.and_false]
  have h2 : ∀ x ∈ descendants (containerOf doc), isHasDateDiv x = false := by
    intro x hx
    rw [isHasDateDiv]
    have : (descendants x).any isDateDiv = false := by
      rw [List.any_eq_false]
      intro y hy
      have hyd : y ∈ descendants doc :=
        descendants_trans doc x (container_desc_sub doc x hx) y hy
      rw [isDateDiv, (hpt y (List.mem_cons_of_mem _ hyd)).2, Bool.and_false]
      exact Bool.false_ne_true
    rw [this, Bool.and_false]
  rw [itemNodes]
  have e1 : (descendants (containerOf doc)).filter isItemDiv = [] := by
    rw [List.filter_eq_nil_iff]
    intro a ha
    rw [h1 a ha]
    exact Bool.false_ne_true
  have e2 : (descendants (containerOf doc)).filter isHasDateDiv = [] := by
    rw [List.filter_eq_nil_iff]
    intro a ha
    rw [h2 a ha]
    exact Bool.false_ne_true
  simp only [e1, e2, List.isEmpty_nil, if_pos]

/-- C2: extraction is total — every document yields a finite list, the empty
document yields the empty list, and a document with neither a header-text
variant nor any record-node structural marker yields the empty list rather
than an error. -/
theorem C2_totality_empty :
    (∀ doc : Node, ∃ out : List Row, parse_full_history_from_html doc = out) ∧
    parse_full_history_from_html emptyDoc = [] ∧
    (∀ doc : Node, hasHeaderText doc = false → hasRecordMarker doc = false →
      parse_full_history_from_html doc = []) := by
  refine ⟨fun doc => ⟨_, rfl⟩, by decide, ?_⟩
  intro doc _ hm
  rw [parse_full_history_from_html, rawRows, itemNodes_nil_of_no_marker hm]
  rfl

theorem C2_totality_empty_witness :
    hasHeaderText plainDoc = false ∧ hasRecordMarker plainDoc = false ∧
    parse_full_history_from_html plainDoc = [] :=
  ⟨by decide, by decide,
    C2_totality_empty.2.2 plainDoc (by decide) (by decide)⟩

/-! ### The ancestor climb in closed form -/

/-- Unfolding the ancestor chain one step. -/
theorem chainFrom_cons (p : List Nat) (hp : p ≠ []) :
    chainFrom p = p :: chainFrom p.dropLast := by
  have hlen : p.length = p.dropLast.length + 1 := by
    have h1 : 0 < p.length := List.length_pos.mpr hp
    have h2 : p.dropLast.length = p.length - 1 := List.length_dropLast p
    omega
  rw [chainFrom, hlen, List.range_succ_eq_map, List.map_cons, List.map_map]
  rfl

/-- A dead container stays dead. -/
theorem climbLoop_none (doc : Node) : ∀ n, climbLoop doc none n = none := by
  intro n; cases n <;> rfl

/-- The loop of lines 40-45, characterised in closed form: the first of the
first `n` chain entries satisfying the predicate; otherwise the `n`-th
ancestor when the chain is long enough, and `none` (the climb walked past
the root) when it is not. -/
theorem climbLoop_spec (doc : Node) : ∀ (n : Nat) (p : List Nat),
    climbLoop doc (some p) n =
      match ((chainFrom p).take n).find? (fun q => containerPredAt doc q) with
      | some q => some q
      | none => if n ≤ p.length then some (iterDropLast n p) else none := by
  intro n
  induction n with
  | zero =>
    intro p
    simp [climbLoop, iterDropLast, List.take_zero, List.find?_nil]
  | succ n ih =>
    intro p
    rw [climbLoop]
    by_cases hp : containerPredAt doc p
    · rw [if_pos hp]
      cases p with
      | nil =>
        have hc : ((chainFrom ([] : List Nat)).take (n + 1)) = [[]] := by
          rw [show chainFrom ([] : List Nat) = [[]] from rfl,
            List.take_succ_cons, List.take_nil]
        rw [hc, List.find?_cons_of_pos _ hp]
      | cons a as =>
        rw [chainFrom_cons (a :: as) (by simp), List.take_succ_cons,
          List.find?_cons_of_pos _ hp]
    · rw [if_neg hp]
      cases p with
      | nil =>
        have hpar : parentPath ([] : List Nat) = none := rfl
        rw [hpar, climbLoop_none]
        have hc : ((chainFrom ([] : List Nat)).take (n + 1)) = [[]] := by
          rw [show chainFrom ([] : List Nat) = [[]] from rfl,
            List.take_succ_cons, List.take_nil]
        rw [hc, List.find?_cons_of_neg _ hp, List.find?_nil]
        simp
      | cons a as =>
        have hpar : parentPath (a :: as) = some (a :: as).dropLast := rfl
        rw [hpar, chainFrom_cons (a :: as) (by simp), List.take_succ_cons,
          List.find?_cons_of_neg _ hp, ih (a :: as).dropLast]
        cases hf : ((chainFrom (a :: as).dropLast).take n).find?
            (fun q => containerPredAt doc q) with
        | some q => rfl
        | none =>
          have hlen : (a :: as).length = (a :: as).dropLast.length + 1 := by
            have h2 := List.length_dropLast (a :: as)
            have h3 : 0 < (a :: as).length := by simp
            omega
          have hiter : iterDropLast (n + 1) (a :: as) =
              iterDropLast n (a :: as).dropLast := rfl
          by_cases hle : n ≤ (a :: as).dropLast.length
          · rw [if_pos hle, if_pos (by omega : n + 1 ≤ (a :: as).length), hiter]
          · rw [if_neg hle, if_neg (by omega : ¬ n + 1 ≤ (a :: as).length)]

/-- C4 counterexample: in `deepDoc` the header anchor is found, none of the
four checked ancestors satisfies the record-node predicate, and the climb
exhausts — yet the container is the inner ancestor `[0, 0]`, not the whole
document (path `[]`); consequently the record node sitting elsewhere in the
document is missed and extraction returns nothing although a whole-document
search would find one item node. -/
theorem C4_counterexample :
    headerPath deepDoc = some [0, 0, 0, 0, 0, 0, 0] ∧
    ((chainFrom [0, 0, 0, 0, 0, 0]).take 4).find?
      (fun p => containerPredAt deepDoc p) = none ∧
    selectContainer deepDoc = [0, 0] ∧ ([0, 0] : List Nat) ≠ [] ∧
    parse_full_history_from_html deepDoc = [] ∧
    ((descendants deepDoc).filter isItemDiv).length = 1 :=
  ⟨by decide, by decide, by decide, by decide, by decide, by decide⟩

/-- C4 amended: with no anchor, or when the climb walks past the document
root, the container is the whole document; when an early checked ancestor
satisfies the record-node predicate it is the container; but when the
four-step climb exhausts at an existing ancestor, that ancestor — the fourth
above the header parent — is the container even though it was never checked
against the predicate. -/
theorem C4_container_amended :
    ∀ doc : Node, selectContainer doc = specContainer doc := by
  intro doc
  cases hh : headerPath doc with
  | none => simp only [selectContainer, specContainer, hh]
  | some hp =>
    simp only [selectContainer, specContainer, hh]
    cases hp with
    | nil =>
      have hpar : parentPath ([] : List Nat) = none := rfl
      rw [show ([] : List Nat).dropLast = [] from rfl, hpar, climbLoop_none]
      have hc : ((chainFrom ([] : List Nat)).take 4) = [[]] := rfl
      rw [hc]
      by_cases hp0 : containerPredAt doc []
      · rw [List.find?_cons_of_pos _ hp0]
      · rw [List.find?_cons_of_neg _ hp0, List.find?_nil]
        simp
    | cons a as =>
      have hpar : parentPath (a :: as) = some (a :: as).dropLast := rfl
      rw [hpar, climbLoop_spec]
      cases hf : ((chainFrom (a :: as).dropLast).take 4).find?
          (fun q => containerPredAt doc q) with
      | some q => rfl
      | none =>
        by_cases hle : 4 ≤ (a :: as).dropLast.length
        · rw [if_pos hle, if_pos hle]
        · rw [if_neg hle, if_neg hle]

/-! ### The one-record pipeline with symbolic texts -/

/-- `get_text(strip=True)` of an element holding one text node. -/
theorem getTextStrip_single (cls2 : List String) (s : String)
    (hs : pyStrip s ≠ "") :
    getTextStrip (Node.elem "div" "" cls2 [Node.text s]) = pyStrip s := by
  have hb : (pyStrip s == "") = false := beq_eq_false_iff_ne.mpr hs
  show joinSep "" (([s].map pyStrip).filter (fun x => !(x == ""))) = pyStrip s
  rw [List.map_cons, List.map_nil, List.filter_cons, hb]
  rfl

/-- The record derived from a well-formed record node whose rating text has
no numeric substring: both texts are kept verbatim (stripped). -/
theorem rowOfItem_record_none (cls d r : String) (hd : pyStrip d ≠ "")
    (hr : pyStrip r ≠ "") (hs : searchUTR (pyStrip r) = none) :
    rowOfItem (recordItem cls d r) = some ⟨pyStrip d, pyStrip r⟩ := by
  rw [rowOfItem,
    show (descendants (recordItem cls d r)).find? isDateDiv =
      some (Node.elem "div" "" ["historyItemDate__x"] [Node.text d]) from rfl,
    show (descendants (recordItem cls d r)).find? isRatingDiv =
      some (Node.elem "div" "" ["historyItemRating__x"] [Node.text r]) from rfl]
  simp only [Option.map_some', Option.getD_some,
    getTextStrip_single _ _ hd, getTextStrip_single _ _ hr]
  have hor : ¬ (pyStrip d = "" ∨ pyStrip r = "") := fun h => h.elim hd hr
  rw [if_neg hor, if_neg hor, if_pos hr, hs, if_pos ⟨hd, hr⟩]

/-- The record derived from a well-formed record node whose rating text
contains a numeric substring: the rating is replaced by the first match. -/
theorem rowOfItem_record_some (cls d r g : String) (hd : pyStrip d ≠ "")
    (hr : pyStrip r ≠ "") (hs : searchUTR (pyStrip r) = some g)
    (hg : g ≠ "") :
    rowOfItem (recordItem cls d r) = some ⟨pyStrip d, g⟩ := by
  rw [rowOfItem,
    show (descendants (recordItem cls d r)).find? isDateDiv =
      some (Node.elem "div" "" ["historyItemDate__x"] [Node.text d]) from rfl,
    show (descendants (recordItem cls d r)).find? isRatingDiv =
      some (Node.elem "div" "" ["historyItemRating__x"] [Node.text r]) from rfl]
  simp only [Option.map_some', Option.getD_some,
    getTextStrip_single _ _ hd, getTextStrip_single _ _ hr]
  have hor : ¬ (pyStrip d = "" ∨ pyStrip r = "") := fun h => h.elim hd hr
  rw [if_neg hor, if_neg hor, if_pos hr, hs, if_pos ⟨hd, hg⟩]

/-- The candidate item nodes of the one-record document. -/
theorem itemNodes_oneRecord (d r : String) :
    itemNodes (oneRecordDoc d r) = [recordItem "a" d r] := rfl

/-- The full extraction on the one-record document, no-match case. -/
theorem parse_oneRecord_none (d r : String) (hd : pyStrip d ≠ "")
    (hr : pyStrip r ≠ "") (hs : searchUTR (pyStrip r) = none) :
    parse_full_history_from_html (oneRecordDoc d r) =
      [⟨pyStrip d, pyStrip r⟩] := by
  rw [parse_full_history_from_html, rawRows, itemNodes_oneRecord,
    List.filterMap_cons, rowOfItem_record_none "a" d r hd hr hs]
  rfl

/-- The full extraction on the one-record document, first-match case. -/
theorem parse_oneRecord_some (d r g : String) (hd : pyStrip d ≠ "")
    (hr : pyStrip r ≠ "") (hs : searchUTR (pyStrip r) = some g)
    (hg : g ≠ "") :
    parse_full_history_from_html (oneRecordDoc d r) = [⟨pyStrip d, g⟩] := by
  rw [parse_full_history_from_html, rawRows, itemNodes_oneRecord,
    List.filterMap_cons, rowOfItem_record_some "a" d r g hd hr hs hg]
  rfl

/-- C3 counterexample: a candidate record node whose rating text "abc" holds
no numeric substring is not dropped — the rating text is kept verbatim and
the candidate still contributes a record, contradicting "normalizes to empty
and the candidate contributes no record". -/
theorem C3_counterexample :
    searchUTR "abc" = none ∧
    parse_full_history_from_html (oneRecordDoc "2023-01-05" "abc") =
      [⟨"2023-01-05", "abc"⟩] ∧
    parse_full_history_from_html (oneRecordDoc "2023-01-05" "abc") ≠ [] :=
  ⟨by decide, by decide, by decide⟩

/-- C3 amended: when the non-empty rating text contains a match of the
one-to-two-digit, one-to-two-decimal pattern, the rating becomes the first
match (so "UTR: 11.87pts" yields "11.87"); when it contains no such
substring the rating text is left unchanged and the candidate still
contributes a record, provided the date text is non-empty. -/
theorem C3_normalization_amended :
    (∀ d r g : String, pyStrip d ≠ "" → pyStrip r ≠ "" →
      searchUTR (pyStrip r) = some g → g ≠ "" →
      parse_full_history_from_html (oneRecordDoc d r) = [⟨pyStrip d, g⟩]) ∧
    (∀ d r : String, pyStrip d ≠ "" → pyStrip r ≠ "" →
      searchUTR (pyStrip r) = none →
      parse_full_history_from_html (oneRecordDoc d r) =
        [⟨pyStrip d, pyStrip r⟩]) ∧
    parse_full_history_from_html (oneRecordDoc "2023-03-10" "UTR: 11.87pts") =
      [⟨"2023-03-10", "11.87"⟩] :=
  ⟨parse_oneRecord_some, parse_oneRecord_none, by decide⟩

theorem C3_normalization_amended_witness :
    (searchUTR (pyStrip "UTR: 11.87pts") = some "11.87" ∧
      parse_full_history_from_html (oneRecordDoc "2023-03-10" "UTR: 11.87pts") =
        [⟨"2023-03-10", "11.87"⟩]) ∧
    (searchUTR (pyStrip "abc") = none ∧
      parse_full_history_from_html (oneRecordDoc "2023-01-05" "abc") =
        [⟨"2023-01-05", "abc"⟩]) :=
  ⟨⟨by decide,
    C3_normalization_amended.1 "2023-03-10" "UTR: 11.87pts" "11.87"
      (by decide) (by decide) (by decide) (by decide)⟩,
   ⟨by decide,
    C3_normalization_amended.2.1 "2023-01-05" "abc"
      (by decide) (by decide) (by decide)⟩⟩

end UTR
